import Mathlib

/-!
# Verification of the AugmentedChords tuner engine (`src/tuner.ts`)

A shallow embedding of the tuner module: pitch detection by windowed
autocorrelation, fundamental selection, note mapping, the stability filter,
the voice-command state machine and the display formatter.

Modelling conventions:
* JavaScript numbers are modelled as exact rationals (`ℚ`).  `Math.abs`,
  `Math.floor`, `Math.ceil`, `Math.round`, `Math.min`, `Math.max` become the
  exact rational operations `jsAbs`, `jsFloor`, `jsCeil`, `jsRound`, `min`,
  `max`.
* The host's transcendental primitives (`Math.cos`, `Math.log2`,
  `Math.sqrt`, `Math.PI`) are parameters of the embedding, collected in a
  `MathPrims` structure; every theorem below holds for an arbitrary
  implementation of these primitives.
* `Float32Array` buffers become `List ℚ`; `for` loops over indices become
  folds over `List.range` / `List.range'` of the same index ranges.
* Nullable values (`number | null`, `string | null`) become `Option`.
* `console.log` calls and the values computed solely for them (the `matches`
  array and the cents bookkeeping in `findClosestGuitarNote`, the debug
  output in peak finding and scoring) are omitted.
* `Array.prototype.sort` (stable since ES2019) with the comparator
  `(a, b) => b.strength - a.strength` is modelled by the stable insertion
  sort on the preorder `b.strength ≤ a.strength`, which computes the same
  permutation as any stable sort for this comparator.
-/

/-- The host math primitives (`Math.cos`, `Math.log2`, `Math.sqrt`,
`Math.PI`) that `tuner.ts` uses.  The embedding is parametric in them. -/
structure MathPrims where
  cos : ℚ → ℚ
  log2 : ℚ → ℚ
  sqrt : ℚ → ℚ
  pi : ℚ

/-- `Math.abs`. -/
def jsAbs (q : ℚ) : ℚ := if q < 0 then -q else q

/-- `Math.floor`. -/
def jsFloor (q : ℚ) : ℤ := Rat.floor q

/-- `Math.ceil`. -/
def jsCeil (q : ℚ) : ℤ := Rat.ceil q

/-- `Math.round` (round half toward positive infinity, as in JS). -/
def jsRound (q : ℚ) : ℤ := jsFloor (q + 1/2)

/-- `NOTE_FREQUENCIES`: the six standard guitar open-string frequencies, in
object-insertion order (`Object.entries` / `Object.values` enumerate in this
order). -/
def NOTE_FREQUENCIES : List (String × ℚ) :=
  [("E2", 82.41), ("A2", 110.00), ("D3", 146.83),
   ("G3", 196.00), ("B3", 246.94), ("E4", 329.63)]

/-- `MIN_FREQUENCY` (Hz). -/
def MIN_FREQUENCY : ℚ := 70

/-- `MAX_FREQUENCY` (Hz). -/
def MAX_FREQUENCY : ℚ := 350

/-- The `TunerState` interface. -/
structure TunerState where
  isActive : Bool
  targetNote : String
  detectedNote : Option String
  detectedFrequency : Option ℚ
  deviation : Option ℚ
deriving DecidableEq, Repr

/-- `initTunerState`. -/
def initTunerState : TunerState :=
  { isActive := false
    targetNote := "E"
    detectedNote := none
    detectedFrequency := none
    deviation := none }

/-- `calculateSignalStrength`: RMS amplitude scaled by `1/0.1` and clamped
to `[0, 1]`. -/
def calculateSignalStrength (prims : MathPrims) (audioData : List ℚ) : ℚ :=
  let sum := (List.range audioData.length).foldl
    (fun s i => s + audioData.getD i 0 * audioData.getD i 0) 0
  let rms := prims.sqrt (sum / (audioData.length : ℚ))
  min 1 (max 0 (rms / 0.1))

/-- The Hamming window coefficient `0.54 - 0.46·cos(2π·i/(N-1))`. -/
def hammingWindowValue (prims : MathPrims) (n i : ℕ) : ℚ :=
  0.54 - 0.46 * prims.cos (2 * prims.pi * (i : ℚ) / ((n : ℚ) - 1))

/-- `applyHammingWindow`. -/
def applyHammingWindow (prims : MathPrims) (audioData : List ℚ) : List ℚ :=
  (List.range audioData.length).map
    (fun i => audioData.getD i 0 * hammingWindowValue prims audioData.length i)

/-- `calculateAutocorrelation`:
`correlation[lag] = (Σ_{i<N-lag} x[i]·x[i+lag]) / (N - lag)`. -/
def calculateAutocorrelation (audioData : List ℚ) : List ℚ :=
  let length := audioData.length
  (List.range length).map (fun lag =>
    ((List.range (length - lag)).foldl
      (fun s i => s + audioData.getD i 0 * audioData.getD (i + lag) 0) 0)
      / ((length : ℚ) - (lag : ℚ)))

/-- The `Peak` interface. -/
structure Peak where
  index : ℕ
  frequency : ℚ
  strength : ℚ
deriving DecidableEq, Repr

/-- `PEAK_THRESHOLD`. -/
def PEAK_THRESHOLD : ℚ := 0.4

/-- `peaks.sort((a, b) => b.strength - a.strength)`: stable sort by
descending strength. -/
def sortPeaksByStrength (peaks : List Peak) : List Peak :=
  peaks.insertionSort (fun a b => b.strength ≤ a.strength)

/-- `startLag = max(5, floor(sampleRate / MAX_FREQUENCY))` (the JS
`Math.max(5, minLag)`; a negative or fractional `minLag` floors and clamps
to `0` before the `max`). -/
def peakStartLag (sampleRate : ℚ) : ℕ :=
  max 5 (jsFloor (sampleRate / MAX_FREQUENCY)).toNat

/-- `maxLag = ceil(sampleRate / MIN_FREQUENCY)` as an array bound. -/
def peakMaxLag (sampleRate : ℚ) : ℕ :=
  (jsCeil (sampleRate / MIN_FREQUENCY)).toNat

/-- The `maxVal` normalization loop of `findMultiplePeaks`:
`for (i = startLag; i < maxLag && i < length; i++) maxVal = max(maxVal, a[i])`. -/
def peakMaxVal (autocorrelation : List ℚ) (sampleRate : ℚ) : ℚ :=
  (List.range' (peakStartLag sampleRate)
    (min (peakMaxLag sampleRate) autocorrelation.length -
      peakStartLag sampleRate)).foldl
    (fun m i => max m (autocorrelation.getD i 0)) 0

/-- One iteration of the peak-detection loop of `findMultiplePeaks`. -/
def peakStep (autocorrelation : List ℚ) (sampleRate maxVal : ℚ)
    (ps : List Peak) (i : ℕ) : List Peak :=
  let prevVal := autocorrelation.getD (i - 1) 0 / maxVal
  let currVal := autocorrelation.getD i 0 / maxVal
  let nextVal := autocorrelation.getD (i + 1) 0 / maxVal
  if PEAK_THRESHOLD < currVal ∧ prevVal < currVal ∧ nextVal < currVal then
    ps ++ [{ index := i, frequency := sampleRate / (i : ℚ), strength := currVal }]
  else ps

/-- `findMultiplePeaks`: local maxima of the normalized autocorrelation above
`PEAK_THRESHOLD`, within the lag window `[max(5, minLag), maxLag)` (the peak
loop also stops at `length - 1`), sorted by descending strength. -/
def findMultiplePeaks (autocorrelation : List ℚ) (sampleRate : ℚ) : List Peak :=
  let maxVal := peakMaxVal autocorrelation sampleRate
  if maxVal = 0 then []
  else
    let peaks := (List.range' (peakStartLag sampleRate)
      (min (peakMaxLag sampleRate) (autocorrelation.length - 1) -
        peakStartLag sampleRate)).foldl
      (peakStep autocorrelation sampleRate maxVal) []
    sortPeaksByStrength peaks

/-- `Object.values(NOTE_FREQUENCIES)`. -/
def expectedFrequencies : List ℚ := NOTE_FREQUENCIES.map (fun nf => nf.2)

/-- One iteration of the harmonic-divisor loop of
`selectFundamentalFrequency`: when the divisor's candidate fundamental is in
range and matched by a strong enough other peak, the flag is set and `0.5`
is subtracted from the running penalty.  The inner `for … of peaks` loop
with `break` is existence over `peaks`, i.e. `List.any`. -/
def harmonicStep (peak : Peak) (peaks : List Peak) (acc : Bool × ℚ)
    (divisor : ℕ) : Bool × ℚ :=
  let potentialFundamental := peak.frequency / (divisor : ℚ)
  if potentialFundamental < MIN_FREQUENCY then acc
  else if peaks.any (fun otherPeak =>
      decide (jsAbs (otherPeak.frequency / potentialFundamental - 1) < 0.05 ∧
        peak.strength * 0.6 < otherPeak.strength)) then
    (true, acc.2 - 0.5)
  else acc

/-- The harmonic-divisor loop of `selectFundamentalFrequency` over the
divisors `[2, 3, 4]`. -/
def harmonicScan (peak : Peak) (peaks : List Peak) : Bool × ℚ :=
  [2, 3, 4].foldl (harmonicStep peak peaks) (false, 0)

/-- The per-peak score of `selectFundamentalFrequency`: base strength,
guitar-note boost, low-frequency bias, harmonic penalty and low-string
bonus. -/
def scorePeak (peak : Peak) (peaks : List Peak) : ℚ :=
  let base := peak.strength * 2
  let withBoost :=
    if expectedFrequencies.any (fun expected =>
        decide (jsAbs (peak.frequency / expected - 1) < 0.05)) then
      base + 1.0
    else base
  let withBias := withBoost + (MAX_FREQUENCY - peak.frequency) / MAX_FREQUENCY
  let scan := harmonicScan peak peaks
  let withPenalty := withBias + scan.2
  if scan.1 = false ∧ 80 ≤ peak.frequency ∧ peak.frequency ≤ 115 then
    withPenalty + 0.5
  else withPenalty

/-- `selectFundamentalFrequency`: the frequency of the strictly best-scoring
peak (starting from `bestScore = -1`, so a frequency is only selected when
its score exceeds `-1`). -/
def selectFundamentalFrequency (peaks : List Peak) : Option ℚ :=
  if peaks = [] then none
  else
    ((peaks.foldl (fun (acc : ℚ × Option ℚ) peak =>
      let score := scorePeak peak peaks
      if acc.1 < score then (score, some peak.frequency) else acc)
      (-1, none))).2

/-- `detectPitch`: signal-strength gate, windowing, autocorrelation, peak
finding, fundamental selection and the final guitar range check. -/
def detectPitch (prims : MathPrims) (audioData : List ℚ) (sampleRate : ℚ) :
    Option ℚ :=
  if calculateSignalStrength prims audioData < 0.01 then none
  else
    let windowedData := applyHammingWindow prims audioData
    let autocorrelation := calculateAutocorrelation windowedData
    let peaks := findMultiplePeaks autocorrelation sampleRate
    if peaks = [] then none
    else
      match selectFundamentalFrequency peaks with
      | none => none
      | some bestFrequency =>
        if MIN_FREQUENCY ≤ bestFrequency ∧ bestFrequency ≤ MAX_FREQUENCY then
          some bestFrequency
        else none

/-- `calculateCentsDeviation`: `round(1200·log2(detected/target))`. -/
def calculateCentsDeviation (prims : MathPrims) (detectedFreq targetFreq : ℚ) : ℚ :=
  ((jsRound (1200 * prims.log2 (detectedFreq / targetFreq)) : ℤ) : ℚ)

/-- `difference < smallestDifference` where `smallestDifference` starts at
JS `Infinity` (modelled as `none`). -/
def jsLtInf (d : ℚ) (smallest : Option ℚ) : Bool :=
  match smallest with
  | none => true
  | some s => decide (d < s)

/-- `difference < smallestDifference * 1.5` with `smallestDifference`
starting at JS `Infinity` (`Infinity * 1.5 = Infinity`). -/
def jsLtInfScaled (d : ℚ) (smallest : Option ℚ) : Bool :=
  match smallest with
  | none => true
  | some s => decide (d < s * 1.5)

/-- `note.charAt(0)` as a one-character string. -/
def jsCharAt0 (s : String) : String := String.mk (s.toList.take 1)

/-- One iteration of the `findClosestGuitarNote` loop, tracking
`(closestNote, smallestDifference)`, with the low-E special case. -/
def guitarNoteStep (frequency : ℚ) (acc : String × Option ℚ)
    (nf : String × ℚ) : String × Option ℚ :=
  let difference := jsAbs (frequency - nf.2)
  if nf.1 = "E2" ∧ difference < 12 then
    if jsLtInfScaled difference acc.2 then (jsCharAt0 nf.1, some difference)
    else acc
  else if jsLtInf difference acc.2 then (jsCharAt0 nf.1, some difference)
  else acc

/-- `findClosestGuitarNote`: fold over the six table entries.  The cents
values the source also tracks are used only for logging and are omitted. -/
def findClosestGuitarNote (frequency : ℚ) : String :=
  (NOTE_FREQUENCIES.foldl (guitarNoteStep frequency) ("", none)).1

/-- `startsWith` on character lists (`String.startsWith` is avoided because
its byte-position recursion does not reduce in the kernel). -/
def listStarts : List Char → List Char → Bool
  | [], _ => true
  | _ :: _, [] => false
  | p :: ps, c :: cs => p = c && listStarts ps cs

/-- `String.prototype.includes`: `containsStr s sub` is true iff `sub`
occurs as a contiguous substring of `s`. -/
def containsStr (s sub : String) : Bool :=
  go sub.toList s.toList
where
  go (needle : List Char) : List Char → Bool
    | [] => needle.isEmpty
    | c :: cs => listStarts needle (c :: cs) || go needle cs

/-- `getTargetFrequency`: the first table entry whose identifier starts with
the given note, defaulting to the low-E frequency. -/
def getTargetFrequency (note : String) : ℚ :=
  match NOTE_FREQUENCIES.find? (fun nf => listStarts note.toList nf.1.toList) with
  | some nf => nf.2
  | none => 82.41

/-- `'X'.repeat(n)` for a single character. -/
def repChar (c : Char) (n : ℕ) : String := String.mk (List.replicate n c)

/-- `formatTunerDisplay`.  The JS guard `!detectedNote` is falsy both for
`null` and for the empty string, hence the explicit `""` test. -/
def formatTunerDisplay (tunerState : TunerState) : String :=
  let header := "TARGET NOTE: " ++ tunerState.targetNote
  let noPitch := header ++ "\n\nNo pitch detected. Play a note." ++
    "\n\nSay \"tune to [NOTE]\" or \"exit tuner mode\""
  match tunerState.detectedNote, tunerState.deviation with
  | some detectedNote, some deviation =>
    if detectedNote = "" then noPitch
    else
      let body :=
        if jsAbs deviation < 5 then
          header ++ "\n\n" ++ detectedNote ++ ": ** IN TUNE! **"
        else if deviation < 0 then
          let arrowCount := min (jsCeil (jsAbs deviation / 10)) 5
          header ++ "\n\n" ++ detectedNote ++ ": TUNE UP " ++
            repChar '<' arrowCount.toNat ++ "|"
        else
          let arrowCount := min (jsCeil (deviation / 10)) 5
          header ++ "\n\n" ++ detectedNote ++ ": TUNE DOWN |" ++
            repChar '>' arrowCount.toNat
      body ++ "\n\nSay \"tune to [NOTE]\" or \"exit\""
  | _, _ => noPitch

/-- `\s` for the command regex (ASCII whitespace; commands are transcribed
lowercase text). -/
def isWsChar (c : Char) : Bool :=
  c = ' ' || c = '\t' || c = '\n' || c = '\r' || c = '\x0b' || c = '\x0c'

/-- Consume a literal case-insensitively (the regex has the `i` flag). -/
def stripCI : List Char → List Char → Option (List Char)
  | [], l => some l
  | _ :: _, [] => none
  | p :: ps, c :: cs => if c.toLower = p then stripCI ps cs else none

/-- Consume `\s+` (at least one whitespace character, greedily; the
characters that follow in the pattern are never whitespace, so greediness is
exact). -/
def stripWs1 : List Char → Option (List Char)
  | [] => none
  | c :: cs => if isWsChar c then some (cs.dropWhile isWsChar) else none

/-- Attempt `/tune\s+to\s+([A-G](?:#|b)?)/i` at the head of the list,
returning the captured group (under `i`, `[A-G]` also matches `a`–`g` and
`b` also matches `B`). -/
def tuneToMatchAt (l : List Char) : Option (List Char) := do
  let l1 ← stripCI ['t', 'u', 'n', 'e'] l
  let l2 ← stripWs1 l1
  let l3 ← stripCI ['t', 'o'] l2
  let l4 ← stripWs1 l3
  match l4 with
  | c :: rest =>
    if 'a' ≤ c.toLower ∧ c.toLower ≤ 'g' then
      match rest with
      | c2 :: _ =>
        if c2 = '#' ∨ c2.toLower = 'b' then some [c, c2] else some [c]
      | [] => some [c]
    else none
  | [] => none

/-- Leftmost match of the pattern anywhere in the list, as
`String.prototype.match` without the `g` flag finds it. -/
def scanTuneTo : List Char → Option (List Char)
  | [] => none
  | c :: cs =>
    match tuneToMatchAt (c :: cs) with
    | some captured => some captured
    | none => scanTuneTo cs

/-- `command.match(/tune\s+to\s+([A-G](?:#|b)?)/i)`, returning the captured
group. -/
def tuneToMatch (command : String) : Option String :=
  (scanTuneTo command.toList).map (fun cs => String.mk cs)

/-- `.toUpperCase()` via `Char.toUpper` (ASCII; `String.toUpper` is avoided
because its byte-position recursion does not reduce in the kernel). -/
def upperStr (s : String) : String := String.mk (s.toList.map Char.toUpper)

/-- `handleTunerCommand`: target-note pattern first, then exit, then enter,
else no change. -/
def handleTunerCommand (command : String) (tunerState : TunerState) : TunerState :=
  match tuneToMatch command with
  | some captured => { tunerState with targetNote := upperStr captured }
  | none =>
    if containsStr command "exit tuner" || containsStr command "chord mode" then
      { tunerState with isActive := false }
    else if containsStr command "tuner mode" || containsStr command "tune guitar" then
      { tunerState with isActive := true }
    else tunerState

/-- `processTunerAudioChunk`. -/
def processTunerAudioChunk (prims : MathPrims) (audioData : List ℚ)
    (tunerState : TunerState) (sampleRate : ℚ) : TunerState :=
  if !tunerState.isActive then tunerState
  else
    let prevDetectedFrequency := tunerState.detectedFrequency
    match detectPitch prims audioData sampleRate with
    | none =>
      match prevDetectedFrequency with
      | none =>
        { tunerState with
          detectedNote := none
          detectedFrequency := none
          deviation := none }
      | some _ => tunerState
    | some detectedFrequency =>
      let smoothedFrequency :=
        match prevDetectedFrequency with
        | some prev =>
          let percentDiff := jsAbs ((detectedFrequency - prev) / prev) * 100
          if percentDiff < 3 then detectedFrequency * 0.7 + prev * 0.3
          else detectedFrequency * 0.9 + prev * 0.1
        | none => detectedFrequency
      { tunerState with
        detectedFrequency := some smoothedFrequency
        detectedNote := some (findClosestGuitarNote smoothedFrequency)
        deviation := some (calculateCentsDeviation prims smoothedFrequency
          (getTargetFrequency tunerState.targetNote)) }

/-- States reachable from `initTunerState` by any sequence of
`processTunerAudioChunk` and `handleTunerCommand` calls. -/
inductive ReachableTunerState : TunerState → Prop where
  | init : ReachableTunerState initTunerState
  | audio (prims : MathPrims) (audioData : List ℚ) (sampleRate : ℚ)
      {s : TunerState} : ReachableTunerState s →
      ReachableTunerState (processTunerAudioChunk prims audioData s sampleRate)
  | command (command : String) {s : TunerState} : ReachableTunerState s →
      ReachableTunerState (handleTunerCommand command s)

/-- A divisor in `{2, 3, 4}` "matches" for a peak when its candidate
fundamental is at least `MIN_FREQUENCY` and some other peak lies within 5%
of it with strength above `0.6×` this peak's strength (this is exactly the
condition under which one iteration of the harmonic loop fires). -/
def divisorMatches (peak : Peak) (peaks : List Peak) (divisor : ℕ) : Bool :=
  let potentialFundamental := peak.frequency / (divisor : ℚ)
  !decide (potentialFundamental < MIN_FREQUENCY) &&
    peaks.any (fun otherPeak =>
      decide (jsAbs (otherPeak.frequency / potentialFundamental - 1) < 0.05 ∧
        peak.strength * 0.6 < otherPeak.strength))


/-! ## Bounds-checked variants

`Except`-valued renderings of the audio pipeline in which every array read
is bounds-checked, used to state that the code has no error path: the
checked pipeline always returns `Except.ok` of what the plain pipeline
computes. -/

/-- A bounds-checked array read. -/
def idxE (l : List ℚ) (i : ℕ) : Except String ℚ :=
  match l[i]? with
  | some v => Except.ok v
  | none => Except.error "array index out of range"

/-- `calculateSignalStrength` with checked reads. -/
def calculateSignalStrengthE (prims : MathPrims) (audioData : List ℚ) :
    Except String ℚ := do
  let sum ← (List.range audioData.length).foldlM
    (fun s i => (idxE audioData i).map (fun v => s + v * v)) (0 : ℚ)
  let rms := prims.sqrt (sum / (audioData.length : ℚ))
  pure (min 1 (max 0 (rms / 0.1)))

/-- `applyHammingWindow` with checked reads. -/
def applyHammingWindowE (prims : MathPrims) (audioData : List ℚ) :
    Except String (List ℚ) :=
  (List.range audioData.length).mapM
    (fun i => (idxE audioData i).map
      (fun v => v * hammingWindowValue prims audioData.length i))

/-- `calculateAutocorrelation` with checked reads. -/
def calculateAutocorrelationE (audioData : List ℚ) :
    Except String (List ℚ) :=
  let length := audioData.length
  (List.range length).mapM (fun lag =>
    ((List.range (length - lag)).foldlM
      (fun s i => do
        let a ← idxE audioData i
        let b ← idxE audioData (i + lag)
        pure (s + a * b)) (0 : ℚ)).map
      (fun sum => sum / ((length : ℚ) - (lag : ℚ))))

/-- The `maxVal` loop with checked reads. -/
def peakMaxValE (autocorrelation : List ℚ) (sampleRate : ℚ) :
    Except String ℚ :=
  (List.range' (peakStartLag sampleRate)
    (min (peakMaxLag sampleRate) autocorrelation.length -
      peakStartLag sampleRate)).foldlM
    (fun m i => (idxE autocorrelation i).map (fun v => max m v)) (0 : ℚ)

/-- One peak-loop iteration with checked reads. -/
def peakStepE (autocorrelation : List ℚ) (sampleRate maxVal : ℚ)
    (ps : List Peak) (i : ℕ) : Except String (List Peak) := do
  let pv ← idxE autocorrelation (i - 1)
  let cv ← idxE autocorrelation i
  let nv ← idxE autocorrelation (i + 1)
  let prevVal := pv / maxVal
  let currVal := cv / maxVal
  let nextVal := nv / maxVal
  if PEAK_THRESHOLD < currVal ∧ prevVal < currVal ∧ nextVal < currVal then
    pure (ps ++ [{ index := i, frequency := sampleRate / (i : ℚ), strength := currVal }])
  else pure ps

/-- `findMultiplePeaks` with checked reads. -/
def findMultiplePeaksE (autocorrelation : List ℚ) (sampleRate : ℚ) :
    Except String (List Peak) := do
  let maxVal ← peakMaxValE autocorrelation sampleRate
  if maxVal = 0 then pure []
  else do
    let peaks ← (List.range' (peakStartLag sampleRate)
      (min (peakMaxLag sampleRate) (autocorrelation.length - 1) -
        peakStartLag sampleRate)).foldlM
      (peakStepE autocorrelation sampleRate maxVal) ([] : List Peak)
    pure (sortPeaksByStrength peaks)

/-- `detectPitch` with checked reads. -/
def detectPitchE (prims : MathPrims) (audioData : List ℚ) (sampleRate : ℚ) :
    Except String (Option ℚ) := do
  let strength ← calculateSignalStrengthE prims audioData
  if strength < 0.01 then pure none
  else do
    let windowedData ← applyHammingWindowE prims audioData
    let autocorrelation ← calculateAutocorrelationE windowedData
    let peaks ← findMultiplePeaksE autocorrelation sampleRate
    if peaks = [] then pure none
    else
      match selectFundamentalFrequency peaks with
      | none => pure none
      | some bestFrequency =>
        if MIN_FREQUENCY ≤ bestFrequency ∧ bestFrequency ≤ MAX_FREQUENCY then
          pure (some bestFrequency)
        else pure none

/-- `processTunerAudioChunk` with checked reads. -/
def processTunerAudioChunkE (prims : MathPrims) (audioData : List ℚ)
    (tunerState : TunerState) (sampleRate : ℚ) : Except String TunerState := do
  if !tunerState.isActive then pure tunerState
  else
    let prevDetectedFrequency := tunerState.detectedFrequency
    let detected ← detectPitchE prims audioData sampleRate
    match detected with
    | none =>
      match prevDetectedFrequency with
      | none =>
        pure { tunerState with
          detectedNote := none
          detectedFrequency := none
          deviation := none }
      | some _ => pure tunerState
    | some detectedFrequency =>
      let smoothedFrequency :=
        match prevDetectedFrequency with
        | some prev =>
          let percentDiff := jsAbs ((detectedFrequency - prev) / prev) * 100
          if percentDiff < 3 then detectedFrequency * 0.7 + prev * 0.3
          else detectedFrequency * 0.9 + prev * 0.1
        | none => detectedFrequency
      pure { tunerState with
        detectedFrequency := some smoothedFrequency
        detectedNote := some (findClosestGuitarNote smoothedFrequency)
        deviation := some (calculateCentsDeviation prims smoothedFrequency
          (getTargetFrequency tunerState.targetNote)) }

/-! ## Concrete inputs for witnesses -/

/-- A concrete instantiation of the host math primitives, used to evaluate
the pipeline on concrete inputs (the theorems hold for all primitives). -/
def prims0 : MathPrims :=
  { cos := fun _ => 0, log2 := fun _ => 0, sqrt := fun x => x, pi := 0 }

/-- A silent chunk: signal strength 0, so no pitch is detected. -/
def audioSilent : List ℚ := List.replicate 9 0

/-- A 9-sample chunk with impulses 7 samples apart: at sample rate 700 Hz
its autocorrelation has a single peak at lag 7, i.e. 100 Hz. -/
def audioPeak7 : List ℚ := [1, 0, 0, 0, 0, 0, 0, 1, 0]

/-- An active state with no previous detection. -/
def stateActiveFresh : TunerState :=
  { isActive := true
    targetNote := "E"
    detectedNote := none
    detectedFrequency := none
    deviation := none }

/-- An active state holding a previous detection of A (110 Hz). -/
def stateActivePrev : TunerState :=
  { isActive := true
    targetNote := "E"
    detectedNote := some "A"
    detectedFrequency := some 110
    deviation := some 0 }


/-! ## Helper lemmas -/

/-- `detectPitch` only ever returns a frequency that passed the final
`MIN_FREQUENCY ≤ f ≤ MAX_FREQUENCY` range check. -/
theorem detectPitch_range (prims : MathPrims) (audioData : List ℚ)
    (sampleRate f : ℚ) (h : detectPitch prims audioData sampleRate = some f) :
    (70 : ℚ) ≤ f ∧ f ≤ 350 := by
  simp only [detectPitch] at h
  split at h
  · exact absurd h (by simp)
  · split at h
    · exact absurd h (by simp)
    · split at h
      · exact absurd h (by simp)
      · split at h
        · rename_i hrange
          cases h
          simpa [MIN_FREQUENCY, MAX_FREQUENCY] using hrange
        · exact absurd h (by simp)

/-- `handleTunerCommand` never touches `detectedFrequency`. -/
theorem handleTunerCommand_detectedFrequency (command : String) (s : TunerState) :
    (handleTunerCommand command s).detectedFrequency = s.detectedFrequency := by
  unfold handleTunerCommand
  cases htm : tuneToMatch command
  · simp only
    split
    · rfl
    · split <;> rfl
  · rfl

/-- C1: for every state reachable from `initTunerState` by any sequence of
`processTunerAudioChunk` and `handleTunerCommand` calls, whenever
`detectedFrequency` is non-null it lies in `[70, 350]` Hz: the detector only
returns in-range frequencies, and the smoothing blends of two in-range
values stay in range. -/
theorem reachable_detectedFrequency_inRange (s : TunerState)
    (hs : ReachableTunerState s) (f : ℚ) (hf : s.detectedFrequency = some f) :
    (70 : ℚ) ≤ f ∧ f ≤ 350 := by
  induction hs generalizing f with
  | init => simp [initTunerState] at hf
  | command command hs ih =>
    rw [handleTunerCommand_detectedFrequency] at hf
    exact ih f hf
  | audio prims audioData sampleRate hs ih =>
    rename_i s'
    simp only [processTunerAudioChunk] at hf
    split at hf
    · exact ih f hf
    · split at hf
      · split at hf
        · simp at hf
        · exact ih f hf
      · rename_i detected hdp
        simp only [TunerState.detectedFrequency, Option.some_inj] at hf
        have hdet := detectPitch_range prims audioData sampleRate detected hdp
        split at hf
        · rename_i prev hprev
          have hpr := ih prev hprev
          split at hf
          · subst hf; constructor <;> nlinarith [hdet.1, hdet.2, hpr.1, hpr.2]
          · subst hf; constructor <;> nlinarith [hdet.1, hdet.2, hpr.1, hpr.2]
        · subst hf; exact hdet

/-- C10: for every audio chunk and sample rate, if the input state has
`isActive = false` then `processTunerAudioChunk` returns the input state
unchanged in every field: no pitch detection, smoothing or deviation
computation occurs while the tuner is inactive. -/
theorem processTunerAudioChunk_inactive_id (prims : MathPrims)
    (audioData : List ℚ) (s : TunerState) (sampleRate : ℚ)
    (h : s.isActive = false) :
    processTunerAudioChunk prims audioData s sampleRate = s := by
  simp only [processTunerAudioChunk, h]
  rfl

/-- C4: when `processTunerAudioChunk` runs on an active state and pitch
detection returns no frequency, the previous detection (if any) is retained
unchanged, and otherwise `detectedNote`, `detectedFrequency` and `deviation`
are all cleared to `null`. -/
theorem processTunerAudioChunk_noPitch (prims : MathPrims)
    (audioData : List ℚ) (s : TunerState) (sampleRate : ℚ)
    (hA : s.isActive = true)
    (hD : detectPitch prims audioData sampleRate = none) :
    (s.detectedFrequency = none →
      processTunerAudioChunk prims audioData s sampleRate =
        { s with detectedNote := none, detectedFrequency := none, deviation := none }) ∧
    (∀ p, s.detectedFrequency = some p →
      processTunerAudioChunk prims audioData s sampleRate = s) := by
  constructor
  · intro hp
    simp only [processTunerAudioChunk, hA, hD, hp]
    rfl
  · intro p hp
    simp only [processTunerAudioChunk, hA, hD, hp]
    rfl

/-- C6: the stability filter of `processTunerAudioChunk`: with no previous
detected frequency the new detection is adopted directly; with a previous
value `p`, if the relative percent difference is below 3% the stored
frequency becomes `0.7·new + 0.3·old`, and otherwise `0.9·new + 0.1·old`. -/
theorem processTunerAudioChunk_smoothing (prims : MathPrims)
    (audioData : List ℚ) (s : TunerState) (sampleRate f : ℚ)
    (hA : s.isActive = true)
    (hD : detectPitch prims audioData sampleRate = some f) :
    (s.detectedFrequency = none →
      (processTunerAudioChunk prims audioData s sampleRate).detectedFrequency =
        some f) ∧
    (∀ p, s.detectedFrequency = some p →
      (jsAbs ((f - p) / p) * 100 < 3 →
        (processTunerAudioChunk prims audioData s sampleRate).detectedFrequency =
          some (f * 0.7 + p * 0.3)) ∧
      (¬ jsAbs ((f - p) / p) * 100 < 3 →
        (processTunerAudioChunk prims audioData s sampleRate).detectedFrequency =
          some (f * 0.9 + p * 0.1))) := by
  constructor
  · intro hp
    simp only [processTunerAudioChunk, hA, hD, hp]
    rfl
  · intro p hp
    constructor <;> intro hdiff <;>
      simp only [processTunerAudioChunk, hA, hD, hp, if_pos, if_neg, hdiff] <;> rfl

/-- C5: whenever the command text matches the pattern
`tune to <letter>[#|b]`, `handleTunerCommand` sets `targetNote` to the
uppercased capture and changes nothing else (in particular `isActive` keeps
its value, and the later exit/enter patterns are not consulted). -/
theorem handleTunerCommand_tuneTo (command : String) (s : TunerState)
    (captured : String) (h : tuneToMatch command = some captured) :
    handleTunerCommand command s = { s with targetNote := upperStr captured } ∧
    (handleTunerCommand command s).isActive = s.isActive := by
  unfold handleTunerCommand
  rw [h]
  exact ⟨rfl, rfl⟩

/-- The harmonic loop, over any divisor list: the flag records whether some
divisor matched, and `0.5` is subtracted once per matching divisor. -/
theorem harmonicStep_foldl (peak : Peak) (peaks : List Peak) :
    ∀ (ds : List ℕ) (acc : Bool × ℚ),
      ds.foldl (harmonicStep peak peaks) acc =
        (acc.1 || ds.any (divisorMatches peak peaks),
         acc.2 - 0.5 * ((ds.filter (divisorMatches peak peaks)).length : ℚ)) := by
  intro ds
  induction ds with
  | nil => intro acc; simp
  | cons d ds ih =>
    intro acc
    rw [List.foldl_cons]
    by_cases hlow : peak.frequency / (d : ℚ) < MIN_FREQUENCY
    · have hstep : harmonicStep peak peaks acc d = acc := by
        simp only [harmonicStep, if_pos hlow]
      have hm : divisorMatches peak peaks d = false := by
        simp only [divisorMatches, decide_eq_true hlow, Bool.not_true,
          Bool.false_and]
      rw [hstep, ih, List.any_cons, hm,
        List.filter_cons_of_neg (by simp [hm])]
      simp
    · cases hany : peaks.any (fun otherPeak =>
          decide (jsAbs (otherPeak.frequency / (peak.frequency / (d : ℚ)) - 1) < 0.05 ∧
            peak.strength * 0.6 < otherPeak.strength))
      · have hstep : harmonicStep peak peaks acc d = acc := by
          simp only [harmonicStep, if_neg hlow, hany, Bool.false_eq_true,
            if_false]
        have hm : divisorMatches peak peaks d = false := by
          simp only [divisorMatches, hany, Bool.and_false]
        rw [hstep, ih, List.any_cons, hm,
          List.filter_cons_of_neg (by simp [hm])]
        simp
      · have hstep : harmonicStep peak peaks acc d = (true, acc.2 - 0.5) := by
          simp only [harmonicStep, if_neg hlow, hany, if_true]
        have hm : divisorMatches peak peaks d = true := by
          simp only [divisorMatches, hany, Bool.and_true]
          simp [hlow]
        rw [hstep, ih, List.any_cons, hm,
          List.filter_cons_of_pos (by simp [hm]), List.length_cons]
        refine Prod.ext (by simp) ?_
        simp only
        push_cast
        ring

/-- C2 (amended): a peak flagged "likely a harmonic" is penalized `-0.5`
once per matching divisor in `{2, 3, 4}`, so its total penalty is
`-0.5·k` where `k ∈ {1, 2, 3}` is the number of matching divisors (not
always `-0.5`: the loop does not stop after the first match). -/
theorem harmonicScan_penalty (peak : Peak) (peaks : List Peak)
    (h : (harmonicScan peak peaks).1 = true) :
    1 ≤ ([2, 3, 4].filter (divisorMatches peak peaks)).length ∧
    ([2, 3, 4].filter (divisorMatches peak peaks)).length ≤ 3 ∧
    (harmonicScan peak peaks).2 =
      -(0.5 * (([2, 3, 4].filter (divisorMatches peak peaks)).length : ℚ)) := by
  rw [harmonicScan, harmonicStep_foldl] at h ⊢
  simp only [Bool.false_or] at h
  refine ⟨?_, ?_, by push_cast; ring⟩
  · rcases List.any_eq_true.mp h with ⟨d, hd, hmatch⟩
    have : d ∈ [2, 3, 4].filter (divisorMatches peak peaks) :=
      List.mem_filter.mpr ⟨hd, hmatch⟩
    exact List.length_pos.mpr (fun hnil => by simp [hnil] at this)
  · simpa using List.length_filter_le (divisorMatches peak peaks) [2, 3, 4]

/-- C8 (amended): when the command does not match the (earlier) target-note
pattern, text containing `"exit tuner"` or `"chord mode"` deactivates the
tuner, text containing `"tuner mode"` or `"tune guitar"` (and not an exit
string) activates it; both transitions change only `isActive`, and
reapplying the same command is idempotent. -/
theorem handleTunerCommand_modeSwitch (command : String) (s : TunerState)
    (h : tuneToMatch command = none) :
    ((containsStr command "exit tuner" = true ∨
      containsStr command "chord mode" = true) →
      handleTunerCommand command s = { s with isActive := false }) ∧
    (containsStr command "exit tuner" = false →
      containsStr command "chord mode" = false →
      (containsStr command "tuner mode" = true ∨
       containsStr command "tune guitar" = true) →
      handleTunerCommand command s = { s with isActive := true }) ∧
    handleTunerCommand command (handleTunerCommand command s) =
      handleTunerCommand command s := by
  unfold handleTunerCommand
  rw [h]
  refine ⟨?_, ?_, ?_⟩
  · rintro (hx | hx) <;> simp [hx]
  · intro h1 h2 h3
    rcases h3 with hx | hx <;> simp [h1, h2, hx]
  · by_cases h1 : (containsStr command "exit tuner" ||
        containsStr command "chord mode") = true
    · simp [h1]
    · simp only [Bool.not_eq_true] at h1
      by_cases h2 : (containsStr command "tuner mode" ||
          containsStr command "tune guitar") = true
      · simp [h1, h2]
      · simp only [Bool.not_eq_true] at h2
        simp [h1, h2]

/-- `jsAbs` is the absolute value. -/
theorem jsAbs_eq_abs (q : ℚ) : jsAbs q = |q| := by
  unfold jsAbs
  rcases lt_or_ge q 0 with hq | hq
  · rw [if_pos hq, abs_of_neg hq]
  · rw [if_neg (not_lt.mpr hq), abs_of_nonneg hq]

/-- A non-`E2` entry whose Hz difference is not below the current smallest
leaves the accumulator unchanged. -/
theorem guitarNoteStep_keep (f : ℚ) (name : String) (q : ℚ)
    (note : String) (best : ℚ) (hname : ¬ name = "E2")
    (hge : ¬ jsAbs (f - q) < best) :
    guitarNoteStep f (note, some best) (name, q) = (note, some best) := by
  simp only [guitarNoteStep, jsLtInf]
  rw [if_neg (fun hc => hname hc.1), if_neg (by simpa using hge)]

/-- The first iteration of `findClosestGuitarNote` always selects low E:
`smallestDifference` is still `Infinity`, so both the special-cased branch
and the ordinary branch fire. -/
theorem guitarNoteStep_E2 (f : ℚ) :
    guitarNoteStep f ("", none) ("E2", 82.41) =
      ("E", some (jsAbs (f - 82.41))) := by
  by_cases hd : jsAbs (f - 82.41) < 12
  · simp only [guitarNoteStep, jsLtInfScaled]
    rw [if_pos (by simp [hd])]
    rfl
  · simp only [guitarNoteStep, jsLtInf]
    rw [if_neg (fun hc => hd hc.2)]
    rfl

/-- Appending the display's trailing hint yields a string ending in the
one-line command hint. -/
theorem append_hint_ends (b : String) :
    ∃ pre, b ++ "\n\nSay \"tune to [NOTE]\" or \"exit\"" =
      pre ++ "Say \"tune to [NOTE]\" or \"exit\"" :=
  ⟨b ++ "\n\n", by rw [String.append_assoc]; simp⟩

/-- C9 (amended): on a state whose detection is non-null and whose detected
note is nonempty (the JS falsy check treats `""` like `null`),
`formatTunerDisplay` shows the in-tune confirmation when `|deviation| < 5`,
a "tune up" indicator with `min(ceil(|deviation|/10), 5)` markers when flat,
the mirrored "tune down" indicator when sharp, and always ends with the
one-line command hint. -/
theorem formatTunerDisplay_spec (s : TunerState) (n : String) (d : ℚ)
    (hn : s.detectedNote = some n) (hne : ¬ n = "")
    (hd : s.deviation = some d) :
    (jsAbs d < 5 → formatTunerDisplay s =
      "TARGET NOTE: " ++ s.targetNote ++ "\n\n" ++ n ++ ": ** IN TUNE! **" ++
        "\n\nSay \"tune to [NOTE]\" or \"exit\"") ∧
    (d < 0 → ¬ jsAbs d < 5 → formatTunerDisplay s =
      "TARGET NOTE: " ++ s.targetNote ++ "\n\n" ++ n ++ ": TUNE UP " ++
        repChar '<' (min (jsCeil (jsAbs d / 10)).toNat 5) ++ "|" ++
        "\n\nSay \"tune to [NOTE]\" or \"exit\"") ∧
    (0 < d → ¬ jsAbs d < 5 → formatTunerDisplay s =
      "TARGET NOTE: " ++ s.targetNote ++ "\n\n" ++ n ++ ": TUNE DOWN |" ++
        repChar '>' (min (jsCeil (jsAbs d / 10)).toNat 5) ++
        "\n\nSay \"tune to [NOTE]\" or \"exit\"") ∧
    (∃ pre, formatTunerDisplay s =
      pre ++ "Say \"tune to [NOTE]\" or \"exit\"") := by
  have hmin : ∀ z : ℤ, (min z 5).toNat = min z.toNat 5 := by
    intro z; omega
  refine ⟨?_, ?_, ?_, ?_⟩
  · intro h5
    simp only [formatTunerDisplay, hn, hd]
    rw [if_neg hne, if_pos h5]
  · intro hneg h5
    simp only [formatTunerDisplay, hn, hd]
    rw [if_neg hne, if_neg h5, if_pos hneg, hmin]
  · intro hpos h5
    have habs : jsAbs d = d := by
      unfold jsAbs
      rw [if_neg (not_lt.mpr (le_of_lt hpos))]
    simp only [formatTunerDisplay, hn, hd]
    rw [if_neg hne, if_neg h5, if_neg (not_lt.mpr (le_of_lt hpos)), hmin, habs]
  · simp only [formatTunerDisplay, hn, hd]
    rw [if_neg hne]
    exact append_hint_ends _

/-- `Except.ok` is left identity for bind. -/
theorem exceptBind_ok {α β : Type} (a : α) (f : α → Except String β) :
    (Except.ok a >>= f) = f a := rfl

/-- Mapping over `Except.ok`. -/
theorem exceptMap_ok {α β : Type} (a : α) (g : α → β) :
    (Except.ok a : Except String α).map g = Except.ok (g a) := rfl

/-- An in-bounds checked read returns exactly the JS read. -/
theorem idxE_ok (l : List ℚ) (i : ℕ) (h : i < l.length) :
    idxE l i = Except.ok (l.getD i 0) := by
  unfold idxE
  rw [List.getElem?_eq_getElem h, List.getD_eq_getElem l 0 h]

/-- A checked fold whose every step succeeds equals the plain fold. -/
theorem foldlM_ok {α : Type} (fE : α → ℕ → Except String α) (f : α → ℕ → α) :
    ∀ (is : List ℕ), (∀ a i, i ∈ is → fE a i = Except.ok (f a i)) →
      ∀ a, is.foldlM fE a = Except.ok (is.foldl f a) := by
  intro is
  induction is with
  | nil => intro _ a; rfl
  | cons x xs ih =>
    intro h a
    rw [List.foldlM_cons, h a x (List.mem_cons_self x xs), exceptBind_ok,
      List.foldl_cons]
    exact ih (fun a i hi => h a i (List.mem_cons_of_mem x hi)) (f a x)

/-- A checked map whose every element succeeds equals the plain map. -/
theorem mapM_ok {β : Type} (fE : ℕ → Except String β) (f : ℕ → β) :
    ∀ (is : List ℕ), (∀ i ∈ is, fE i = Except.ok (f i)) →
      is.mapM fE = Except.ok (is.map f) := by
  intro is
  induction is with
  | nil => intro _; rfl
  | cons x xs ih =>
    intro h
    rw [List.mapM_cons, h x (List.mem_cons_self x xs), exceptBind_ok,
      ih (fun i hi => h i (List.mem_cons_of_mem x hi)), exceptBind_ok]
    rfl

/-- The checked signal strength never fails. -/
theorem calculateSignalStrengthE_ok (prims : MathPrims) (audioData : List ℚ) :
    calculateSignalStrengthE prims audioData =
      Except.ok (calculateSignalStrength prims audioData) := by
  have hfold := foldlM_ok
    (fun (s : ℚ) i => (idxE audioData i).map (fun v => s + v * v))
    (fun s i => s + audioData.getD i 0 * audioData.getD i 0)
    (List.range audioData.length)
    (fun a i hi => by
      show (idxE audioData i).map (fun v => a + v * v) =
        Except.ok (a + audioData.getD i 0 * audioData.getD i 0)
      rw [idxE_ok audioData i (List.mem_range.mp hi)]
      rfl) 0
  simp only [calculateSignalStrengthE, calculateSignalStrength]
  rw [hfold, exceptBind_ok]
  rfl

/-- The checked windowing never fails. -/
theorem applyHammingWindowE_ok (prims : MathPrims) (audioData : List ℚ) :
    applyHammingWindowE prims audioData =
      Except.ok (applyHammingWindow prims audioData) := by
  exact mapM_ok _ _ (List.range audioData.length)
    (fun i hi => by
      show (idxE audioData i).map
        (fun v => v * hammingWindowValue prims audioData.length i) = _
      rw [idxE_ok audioData i (List.mem_range.mp hi)]
      rfl)

/-- The checked autocorrelation never fails. -/
theorem calculateAutocorrelationE_ok (audioData : List ℚ) :
    calculateAutocorrelationE audioData =
      Except.ok (calculateAutocorrelation audioData) := by
  simp only [calculateAutocorrelationE, calculateAutocorrelation]
  refine mapM_ok _ _ (List.range audioData.length) (fun lag hlag => ?_)
  have hfold := foldlM_ok
    (fun (s : ℚ) i => do
      let a ← idxE audioData i
      let b ← idxE audioData (i + lag)
      pure (s + a * b))
    (fun s i => s + audioData.getD i 0 * audioData.getD (i + lag) 0)
    (List.range (audioData.length - lag))
    (fun a i hi => by
      have hi1 : i < audioData.length - lag := List.mem_range.mp hi
      have h1 : i < audioData.length := by omega
      have h2 : i + lag < audioData.length := by omega
      show (idxE audioData i >>= fun x =>
        idxE audioData (i + lag) >>= fun y => pure (a + x * y)) = _
      rw [idxE_ok audioData i h1, exceptBind_ok,
        idxE_ok audioData (i + lag) h2, exceptBind_ok]
      rfl) 0
  rw [hfold, exceptMap_ok]

/-- The checked `maxVal` loop never fails. -/
theorem peakMaxValE_ok (autocorrelation : List ℚ) (sampleRate : ℚ) :
    peakMaxValE autocorrelation sampleRate =
      Except.ok (peakMaxVal autocorrelation sampleRate) := by
  refine foldlM_ok _ _ _ (fun a i hi => ?_) 0
  have hb := List.mem_range'_1.mp hi
  have h1 : i < autocorrelation.length := by omega
  show (idxE autocorrelation i).map (fun v => max a v) = _
  rw [idxE_ok autocorrelation i h1]
  rfl

/-- A checked peak-loop iteration never fails inside the lag window. -/
theorem peakStepE_ok (autocorrelation : List ℚ) (sampleRate maxVal : ℚ)
    (ps : List Peak) (i : ℕ) (h : i + 1 < autocorrelation.length) :
    peakStepE autocorrelation sampleRate maxVal ps i =
      Except.ok (peakStep autocorrelation sampleRate maxVal ps i) := by
  have h1 : i - 1 < autocorrelation.length := by omega
  have h2 : i < autocorrelation.length := by omega
  simp only [peakStepE, peakStep, idxE_ok autocorrelation (i - 1) h1,
    idxE_ok autocorrelation i h2, idxE_ok autocorrelation (i + 1) h,
    exceptBind_ok]
  split <;> rfl

/-- The checked peak extraction never fails. -/
theorem findMultiplePeaksE_ok (autocorrelation : List ℚ) (sampleRate : ℚ) :
    findMultiplePeaksE autocorrelation sampleRate =
      Except.ok (findMultiplePeaks autocorrelation sampleRate) := by
  simp only [findMultiplePeaksE, findMultiplePeaks, peakMaxValE_ok,
    exceptBind_ok]
  split
  · rfl
  · have hpeaks := foldlM_ok
      (peakStepE autocorrelation sampleRate (peakMaxVal autocorrelation sampleRate))
      (peakStep autocorrelation sampleRate (peakMaxVal autocorrelation sampleRate))
      (List.range' (peakStartLag sampleRate)
        (min (peakMaxLag sampleRate) (autocorrelation.length - 1) -
          peakStartLag sampleRate))
      (fun a i hi => by
        have hb := List.mem_range'_1.mp hi
        exact peakStepE_ok autocorrelation sampleRate _ a i (by omega)) []
    rw [hpeaks, exceptBind_ok]
    rfl

/-- The checked pitch detector never fails. -/
theorem detectPitchE_ok (prims : MathPrims) (audioData : List ℚ)
    (sampleRate : ℚ) :
    detectPitchE prims audioData sampleRate =
      Except.ok (detectPitch prims audioData sampleRate) := by
  simp only [detectPitchE, detectPitch, calculateSignalStrengthE_ok,
    exceptBind_ok]
  split
  · rfl
  · simp only [applyHammingWindowE_ok, exceptBind_ok,
      calculateAutocorrelationE_ok, exceptBind_ok, findMultiplePeaksE_ok,
      exceptBind_ok]
    split
    · rfl
    · cases hsel : selectFundamentalFrequency
        (findMultiplePeaks
          (calculateAutocorrelation (applyHammingWindow prims audioData))
          sampleRate)
      · rfl
      · split <;> first | rfl | (split <;> rfl)

/-- The checked chunk processor never fails. -/
theorem processTunerAudioChunkE_ok (prims : MathPrims) (audioData : List ℚ)
    (tunerState : TunerState) (sampleRate : ℚ) :
    processTunerAudioChunkE prims audioData tunerState sampleRate =
      Except.ok (processTunerAudioChunk prims audioData tunerState sampleRate) := by
  simp only [processTunerAudioChunkE, processTunerAudioChunk]
  split
  · rfl
  · simp only [detectPitchE_ok, exceptBind_ok]
    cases hdp : detectPitch prims audioData sampleRate
    · cases hprev : tunerState.detectedFrequency <;> rfl
    · rfl

/-- C7: the engine is total and exception-free: the bounds-checked variant
of `processTunerAudioChunk` always returns `Except.ok` of the plain result
(insufficient signal, no peaks and out-of-range fundamentals are ordinary
return values), and `handleTunerCommand` always returns one of the four
ordinary state outcomes: unchanged, new target note, deactivated, or
activated. -/
theorem engine_total (prims : MathPrims) (audioData : List ℚ)
    (tunerState : TunerState) (sampleRate : ℚ) (command : String) :
    processTunerAudioChunkE prims audioData tunerState sampleRate =
      Except.ok (processTunerAudioChunk prims audioData tunerState sampleRate) ∧
    (handleTunerCommand command tunerState = tunerState ∨
      (∃ t, handleTunerCommand command tunerState =
        { tunerState with targetNote := t }) ∨
      handleTunerCommand command tunerState =
        { tunerState with isActive := false } ∨
      handleTunerCommand command tunerState =
        { tunerState with isActive := true }) := by
  refine ⟨processTunerAudioChunkE_ok prims audioData tunerState sampleRate, ?_⟩
  unfold handleTunerCommand
  cases htm : tuneToMatch command
  · simp only
    split
    · exact Or.inr (Or.inr (Or.inl rfl))
    · split
      · exact Or.inr (Or.inr (Or.inr rfl))
      · exact Or.inl rfl
  · exact Or.inr (Or.inl ⟨_, rfl⟩)

section RatComputations

attribute [local semireducible] Rat.add Rat.mul Rat.sub Rat.inv Rat.ofScientific

/-- C3: `findClosestGuitarNote` compares the frequency against all six table
entries by absolute Hz difference with the low-E special case; for every
frequency within 12 Hz of 82.41 no other entry is strictly closer (the
nearest, A2 at 110 Hz, is at least 15.59 Hz away), so the low-E entry wins;
in particular `findClosestGuitarNote 83 = "E"` and
`findClosestGuitarNote 150 = "D"`. -/
theorem findClosestGuitarNote_lowE (f : ℚ) (h : jsAbs (f - 82.41) ≤ 12) :
    findClosestGuitarNote f = "E" ∧
    findClosestGuitarNote 83 = "E" ∧ findClosestGuitarNote 150 = "D" := by
  refine ⟨?_, by decide, by decide⟩
  have habs : |f - 82.41| ≤ 12 := by rw [← jsAbs_eq_abs]; exact h
  obtain ⟨hlo, hhi⟩ := abs_le.mp habs
  have hkeep : ∀ q : ℚ, (110 : ℚ) ≤ q →
      ¬ jsAbs (f - q) < jsAbs (f - 82.41) := by
    intro q hq
    rw [jsAbs_eq_abs, jsAbs_eq_abs, abs_of_nonpos (by linarith : f - q ≤ 0)]
    exact not_lt.mpr (le_trans habs (by linarith))
  unfold findClosestGuitarNote NOTE_FREQUENCIES
  rw [List.foldl_cons, guitarNoteStep_E2 f, List.foldl_cons,
    guitarNoteStep_keep f "A2" 110.00 "E" (jsAbs (f - 82.41)) (by decide)
      (hkeep 110.00 (by norm_num)),
    List.foldl_cons,
    guitarNoteStep_keep f "D3" 146.83 "E" (jsAbs (f - 82.41)) (by decide)
      (hkeep 146.83 (by norm_num)),
    List.foldl_cons,
    guitarNoteStep_keep f "G3" 196.00 "E" (jsAbs (f - 82.41)) (by decide)
      (hkeep 196.00 (by norm_num)),
    List.foldl_cons,
    guitarNoteStep_keep f "B3" 246.94 "E" (jsAbs (f - 82.41)) (by decide)
      (hkeep 246.94 (by norm_num)),
    List.foldl_cons,
    guitarNoteStep_keep f "E4" 329.63 "E" (jsAbs (f - 82.41)) (by decide)
      (hkeep 329.63 (by norm_num)),
    List.foldl_nil]

/-- C3 witness: the theorem applied at `f = 83`. -/
theorem findClosestGuitarNote_lowE_witness :
    jsAbs ((83 : ℚ) - 82.41) ≤ 12 ∧ findClosestGuitarNote 83 = "E" :=
  ⟨by decide, (findClosestGuitarNote_lowE 83 (by decide)).1⟩

/-- C2 counterexample: a peak at 300 Hz with peers near 150, 100 and 75 Hz
(all of comparable strength) is flagged "likely a harmonic" but its total
penalty is `-1.5`, not `-0.5`: each of the divisors 2, 3 and 4 fires. -/
theorem harmonicScan_penalty_cex :
    ((⟨0, 300, 1⟩ : Peak) ∈
      ([⟨0, 300, 1⟩, ⟨1, 150, 1⟩, ⟨2, 100, 1⟩, ⟨3, 75, 1⟩] : List Peak)) ∧
    (harmonicScan ⟨0, 300, 1⟩
      [⟨0, 300, 1⟩, ⟨1, 150, 1⟩, ⟨2, 100, 1⟩, ⟨3, 75, 1⟩]).1 = true ∧
    (harmonicScan ⟨0, 300, 1⟩
      [⟨0, 300, 1⟩, ⟨1, 150, 1⟩, ⟨2, 100, 1⟩, ⟨3, 75, 1⟩]).2 = -1.5 ∧
    ¬ (harmonicScan ⟨0, 300, 1⟩
      [⟨0, 300, 1⟩, ⟨1, 150, 1⟩, ⟨2, 100, 1⟩, ⟨3, 75, 1⟩]).2 = -0.5 := by
  decide

/-- C2 witness: the amended theorem applied to a peak at 160 Hz with a peer
at 80 Hz, where exactly one divisor matches. -/
theorem harmonicScan_penalty_witness :
    (harmonicScan ⟨0, 160, 1⟩ [⟨0, 160, 1⟩, ⟨1, 80, 1⟩]).1 = true ∧
    (1 ≤ ([2, 3, 4].filter
        (divisorMatches ⟨0, 160, 1⟩ [⟨0, 160, 1⟩, ⟨1, 80, 1⟩])).length ∧
      ([2, 3, 4].filter
        (divisorMatches ⟨0, 160, 1⟩ [⟨0, 160, 1⟩, ⟨1, 80, 1⟩])).length ≤ 3 ∧
      (harmonicScan ⟨0, 160, 1⟩ [⟨0, 160, 1⟩, ⟨1, 80, 1⟩]).2 =
        -(0.5 * (([2, 3, 4].filter
          (divisorMatches ⟨0, 160, 1⟩ [⟨0, 160, 1⟩, ⟨1, 80, 1⟩])).length : ℚ))) :=
  ⟨by decide, harmonicScan_penalty ⟨0, 160, 1⟩ [⟨0, 160, 1⟩, ⟨1, 80, 1⟩] (by decide)⟩

/-- C1 witness: after entering tuner mode and processing one audible chunk,
the stored frequency is 100 Hz, which the invariant theorem places in
`[70, 350]`. -/
theorem reachable_detectedFrequency_inRange_witness :
    (processTunerAudioChunk prims0 audioPeak7
      (handleTunerCommand "tuner mode" initTunerState) 700).detectedFrequency =
      some 100 ∧ ((70 : ℚ) ≤ 100 ∧ (100 : ℚ) ≤ 350) :=
  ⟨by decide, reachable_detectedFrequency_inRange _
    (ReachableTunerState.audio prims0 audioPeak7 700
      (ReachableTunerState.command "tuner mode" ReachableTunerState.init))
    100 (by decide)⟩

/-- C4 witness: a silent chunk after a valid detection leaves the state
unchanged. -/
theorem processTunerAudioChunk_noPitch_witness :
    stateActivePrev.isActive = true ∧
    detectPitch prims0 audioSilent 700 = none ∧
    processTunerAudioChunk prims0 audioSilent stateActivePrev 700 =
      stateActivePrev :=
  ⟨rfl, by decide,
    (processTunerAudioChunk_noPitch prims0 audioSilent stateActivePrev 700
      rfl (by decide)).2 110 rfl⟩

/-- C5 witness: `"tune to a"` sets the target to `"A"` on the inactive
initial state without activating. -/
theorem handleTunerCommand_tuneTo_witness :
    tuneToMatch "tune to a" = some "a" ∧
    handleTunerCommand "tune to a" initTunerState =
      { initTunerState with targetNote := "A" } := by
  refine ⟨by decide, ?_⟩
  rw [(handleTunerCommand_tuneTo "tune to a" initTunerState "a" (by decide)).1]
  decide

/-- C6 witness: with no previous detection, the freshly detected 100 Hz is
adopted directly. -/
theorem processTunerAudioChunk_smoothing_witness :
    detectPitch prims0 audioPeak7 700 = some 100 ∧
    (processTunerAudioChunk prims0 audioPeak7 stateActiveFresh
      700).detectedFrequency = some 100 :=
  ⟨by decide,
    (processTunerAudioChunk_smoothing prims0 audioPeak7 stateActiveFresh 700
      100 rfl (by decide)).1 rfl⟩

/-- C8 counterexample: `"tune to a exit tuner"` contains `"exit tuner"`,
yet the tuner stays active: the target-note pattern matches first. -/
theorem handleTunerCommand_modeSwitch_cex :
    containsStr "tune to a exit tuner" "exit tuner" = true ∧
    (handleTunerCommand "tune to a exit tuner" stateActiveFresh).isActive =
      true := by
  decide

/-- C8 witness: the amended theorem applied to `"exit tuner"` on an active
state. -/
theorem handleTunerCommand_modeSwitch_witness :
    tuneToMatch "exit tuner" = none ∧
    handleTunerCommand "exit tuner" stateActiveFresh =
      { stateActiveFresh with isActive := false } :=
  ⟨by decide, (handleTunerCommand_modeSwitch "exit tuner" stateActiveFresh
    (by decide)).1 (Or.inl (by decide))⟩

/-- C9 counterexample: a state with the non-null detection
`detectedNote = some ""`, `deviation = some 0` (so `|deviation| < 5`) shows
the no-pitch text, not the in-tune confirmation: the JS guard
`!detectedNote` also treats the empty string as "no detection". -/
theorem formatTunerDisplay_spec_cex :
    ({ isActive := true, targetNote := "E", detectedNote := some "", detectedFrequency := some 110, deviation := some 0 } : TunerState).detectedNote = some "" ∧
    jsAbs (0 : ℚ) < 5 ∧
    formatTunerDisplay { isActive := true, targetNote := "E", detectedNote := some "", detectedFrequency := some 110, deviation := some 0 } =
      "TARGET NOTE: E\n\nNo pitch detected. Play a note.\n\nSay \"tune to [NOTE]\" or \"exit tuner mode\"" ∧
    ¬ formatTunerDisplay { isActive := true, targetNote := "E", detectedNote := some "", detectedFrequency := some 110, deviation := some 0 } =
      "TARGET NOTE: E\n\n: ** IN TUNE! **\n\nSay \"tune to [NOTE]\" or \"exit\"" := by
  decide

/-- C9 witness: the amended theorem applied to an in-tune state with
detected note `"A"`. -/
theorem formatTunerDisplay_spec_witness :
    formatTunerDisplay { isActive := true, targetNote := "E", detectedNote := some "A", detectedFrequency := some 110, deviation := some 0 } =
      "TARGET NOTE: E\n\nA: ** IN TUNE! **\n\nSay \"tune to [NOTE]\" or \"exit\"" := by
  rw [(formatTunerDisplay_spec
    { isActive := true, targetNote := "E", detectedNote := some "A", detectedFrequency := some 110, deviation := some 0 }
    "A" 0 rfl (by decide) rfl).1 (by decide)]
  decide

/-- C10 witness: an inactive state is returned unchanged. -/
theorem processTunerAudioChunk_inactive_id_witness :
    initTunerState.isActive = false ∧
    processTunerAudioChunk prims0 audioPeak7 initTunerState 700 =
      initTunerState :=
  ⟨rfl, processTunerAudioChunk_inactive_id prims0 audioPeak7 initTunerState
    700 rfl⟩

end RatComputations
